import Mathlib

/-!
# Jobly: the `Job` model (`models/job.js`)

A shallow embedding of the query-building code of the `Job` model.

* JavaScript values are the type `JSVal`; objects whose properties the code
  reads (`filters`, `data`) are insertion-ordered key/value lists (`JSObj`).
* The database module (`db`) is an external collaborator: it is a parameter
  `Db σ` whose `query` takes the SQL text, the positional values and the store
  state, and returns rows or an error together with the next store state.
* Numbers are modelled as integers (salaries, ids); `NaN`, infinities and
  fractional doubles are outside the model.
-/

set_option maxRecDepth 100000

namespace Jobly

/-! ## JavaScript values -/

/-- The JavaScript values the model handles. -/
inductive JSVal where
  | undefined
  | null
  | bool (b : Bool)
  | num (n : Int)
  | str (s : String)
  deriving DecidableEq, Repr

/-- JavaScript `ToBoolean`: the test an `if (x)` performs. -/
def JSVal.truthy : JSVal → Bool
  | .undefined => false
  | .null => false
  | .bool b => b
  | .num n => n != 0
  | .str s => s != ""

/-- JavaScript `ToString`, as applied to a hole of a template literal. -/
def JSVal.toStr : JSVal → String
  | .undefined => "undefined"
  | .null => "null"
  | .bool true => "true"
  | .bool false => "false"
  | .num n => toString n
  | .str s => s

/-- A plain JavaScript object: its own properties in insertion order. -/
abbrev JSObj := List (String × JSVal)

/-- Property read `o.key`: the value stored under `key`, `undefined` if none. -/
def JSObj.get : JSObj → String → JSVal
  | [], _ => .undefined
  | (k, v) :: rest, key => if k = key then v else JSObj.get rest key

/-- The keys of an object, in insertion order (`Object.keys`). -/
def JSObj.keys (o : JSObj) : List String := o.map Prod.fst

/-- An object holds each key at most once. -/
def JSObj.WellFormed (o : JSObj) : Prop := (JSObj.keys o).Nodup

/-! ## Errors and the database interface -/

/-- The errors a model method can fail with. -/
inductive JSError where
  | BadRequestError
  | EmptyInputError
  | NotFoundError (message : String)
  | dbError (message : String)
  deriving DecidableEq, Repr

/-- The `db` module: `db.query(text, values)` run against a store of type `σ`. -/
structure Db (σ : Type) where
  query : String → List JSVal → σ → Except JSError (List JSObj) × σ

/-! ## `Job.filter` -/

/-- The locals `queries`, `values`, `idx` of `Job.filter`. -/
structure FilterState where
  queries : List String
  values : List JSVal
  idx : Nat
  deriving DecidableEq, Repr

/-- Lines 61-76 of `Job.filter`: the three `if` blocks, run in sequence. -/
def Job.filterBuild (filters : JSObj) : FilterState :=
  let st : FilterState := { queries := [], values := [], idx := 1 }
  let st :=
    if (JSObj.get filters "title").truthy then
      { queries := st.queries ++ ["title ILIKE $" ++ toString st.idx],
        values := st.values ++ [JSVal.str ("%" ++ (JSObj.get filters "title").toStr ++ "%")],
        idx := st.idx + 1 }
    else st
  let st :=
    if (JSObj.get filters "minSalary").truthy then
      { queries := st.queries ++ ["salary >= $" ++ toString st.idx],
        values := st.values ++ [JSObj.get filters "minSalary"],
        idx := st.idx + 1 }
    else st
  let st :=
    if (JSObj.get filters "hasEquity").truthy then
      { st with queries := st.queries ++ ["equity > 0"] }
    else st
  st

/-- Line 77: `queries.join(' AND ')`. -/
def Job.filterClause (filters : JSObj) : String :=
  " AND ".intercalate (Job.filterBuild filters).queries

/-- The values list handed to `db.query` by `Job.filter`. -/
def Job.filterValues (filters : JSObj) : List JSVal :=
  (Job.filterBuild filters).values

/-- Lines 79-86: the template literal, with `query` in its hole. -/
def Job.filterSqlOf (query : String) : String :=
  "SELECT id, \n" ++
  "                  title,\n" ++
  "                  salary,\n" ++
  "                  equity, \n" ++
  "                  company_handle AS \"companyHandle\"\n" ++
  "          FROM jobs\n" ++
  "          WHERE " ++ query ++ " \n" ++
  "          ORDER BY id DESC"

/-- The SQL text `Job.filter` passes to `db.query`. -/
def Job.filterSql (filters : JSObj) : String :=
  Job.filterSqlOf (Job.filterClause filters)

/-- The method `Job.filter(filters)`: build the clause, issue the one query, return its rows. -/
def Job.filter {σ : Type} (db : Db σ) (filters : JSObj) (s : σ) :
    Except JSError (List JSObj) × σ :=
  let st := Job.filterBuild filters
  let query := " AND ".intercalate st.queries
  db.query (Job.filterSqlOf query) st.values s

/-! ## Reading a SQL text -/

/-- What a placeholder scan has pending while it walks a SQL text: `none` outside a
placeholder, `some none` right after a dollar sign, `some (some n)` after a dollar
sign and digits spelling `n`. -/
abbrev ScanState := Option (Option Nat)

/-- The placeholder a scan state stands for, if it has read one. -/
def emitPlaceholder : ScanState → List Nat
  | some (some n) => [n]
  | _ => []

/-- Walk the characters of a SQL text and list the numbers of its positional
placeholders (a dollar sign followed by decimal digits), left to right. -/
def placeholdersFrom : ScanState → List Char → List Nat
  | st, [] => emitPlaceholder st
  | st, c :: cs =>
    if c = '$' then emitPlaceholder st ++ placeholdersFrom (some none) cs
    else if c.isDigit then
      match st with
      | none => placeholdersFrom none cs
      | some none => placeholdersFrom (some (some (c.toNat - 48))) cs
      | some (some n) => placeholdersFrom (some (some (10 * n + (c.toNat - 48)))) cs
    else emitPlaceholder st ++ placeholdersFrom none cs

/-- The positional placeholders of a SQL text, left to right. -/
def placeholders (sql : String) : List Nat := placeholdersFrom none sql.toList

/-! ## `Job.findAll` -/

/-- Lines 43-49: the SQL text of `Job.findAll`. -/
def Job.findAllSql : String :=
  "SELECT id,\n" ++
  "                  title,\n" ++
  "                  salary,\n" ++
  "                  equity,\n" ++
  "                  company_handle AS \"companyHandle\"\n" ++
  "           FROM jobs\n" ++
  "           ORDER BY id DESC"

/-- The method `Job.findAll()`: one query without values, whose rows are returned. -/
def Job.findAll {σ : Type} (db : Db σ) (s : σ) : Except JSError (List JSObj) × σ :=
  db.query Job.findAllSql [] s

/-! ## The partial-update builder and `Job.update` -/

/-- The result of the partial-update builder: the `column = $n` fragments and the
values they bind. -/
structure PartialUpdate where
  assignments : List String
  values : List JSVal
  deriving DecidableEq, Repr

/-- Modelled from the spec: the column a field is stored in, `columnMapping[key]` when
the key is in the mapping, else the key itself. -/
def columnFor (jsToSql : List (String × String)) (key : String) : String :=
  match jsToSql.lookup key with
  | some c => c
  | none => key

/-- Modelled from the spec: one iteration of the builder's loop over the field map
(`sqlForPartialUpdate` of `helpers/sql.js` is not among the sources). The column is
`columnMapping[key]` when the key is in the mapping, else the key itself; the fragment
is the column, ` = $` and the 1-based position of the value in the output values. -/
def sqlForPartialUpdate.step (jsToSql : List (String × String)) (acc : PartialUpdate)
    (field : String × JSVal) : PartialUpdate :=
  let column := columnFor jsToSql field.1
  { assignments := acc.assignments ++ [column ++ " = $" ++ toString (acc.values.length + 1)],
    values := acc.values ++ [field.2] }

/-- Modelled from the spec: `sqlForPartialUpdate(dataToUpdate, jsToSql)` of
`helpers/sql.js`, which is not among the sources. It fails with `EmptyInputError` when
the field map has zero entries and otherwise iterates the fields in insertion order. -/
def sqlForPartialUpdate (dataToUpdate : JSObj) (jsToSql : List (String × String)) :
    Except JSError PartialUpdate :=
  if dataToUpdate.length = 0 then .error .EmptyInputError
  else .ok (dataToUpdate.foldl (sqlForPartialUpdate.step jsToSql)
    { assignments := [], values := [] })

/-- Lines 151-158 of `Job.update`: the template literal with `setCols` and `idVarIdx`
in its holes. -/
def Job.updateSqlOf (setCols idVarIdx : String) : String :=
  "UPDATE jobs \n" ++
  "                      SET " ++ setCols ++ " \n" ++
  "                      WHERE id = " ++ idVarIdx ++ " \n" ++
  "                      RETURNING id, \n" ++
  "                                title, \n" ++
  "                                salary, \n" ++
  "                                equity, \n" ++
  "                                company_handle AS \"companyHandle\""

/-- What `Job.update` takes from the result of the builder: `setCols` and `values`. -/
structure SetClause where
  setCols : String
  values : List JSVal
  deriving DecidableEq, Repr

/-- The helper `sqlForPartialUpdate` as `Job.update` calls it: from the data and the
column mapping to `setCols` and `values`, or a failure. -/
abbrev PartialUpdateBuilder := JSObj → List (String × String) → Except JSError SetClause

/-- Lines 143-166, the method `Job.update(id, data)`, with the helper
`sqlForPartialUpdate` (of `helpers/sql.js`, not among the sources) as the parameter
`builder`. The builder runs first and its failure ends the call; otherwise the one query
is issued with the values followed by `id`, and a result without a first row is a
`NotFoundError`. The `console.log` call is left out. -/
def Job.updateWith {σ : Type} (builder : PartialUpdateBuilder) (db : Db σ) (id : JSVal)
    (data : JSObj) (s : σ) : Except JSError JSObj × σ :=
  match builder data [("companyHandle", "company_handle")] with
  | .error e => (.error e, s)
  | .ok built =>
    let setCols := built.setCols
    let values := built.values
    let idVarIdx := "$" ++ toString (values.length + 1)
    let querySql := Job.updateSqlOf setCols idVarIdx
    match db.query querySql (values ++ [id]) s with
    | (.error e, s1) => (.error e, s1)
    | (.ok rows, s1) =>
      match rows.head? with
      | none => (.error (.NotFoundError ("No job with id of " ++ id.toStr)), s1)
      | some job => (.ok job, s1)

/-- Modelled from the spec: the builder of the spec as `Job.update` receives it, with
`setCols` the assignments separated by a comma and a space, as a SQL `SET` list. -/
def sqlForPartialUpdate.setClause : PartialUpdateBuilder := fun dataToUpdate jsToSql =>
  match sqlForPartialUpdate dataToUpdate jsToSql with
  | .error e => .error e
  | .ok built =>
    .ok { setCols := ", ".intercalate built.assignments, values := built.values }

/-- The method `Job.update(id, data)` with the builder of the spec. -/
def Job.update {σ : Type} (db : Db σ) (id : JSVal) (data : JSObj) (s : σ) :
    Except JSError JSObj × σ :=
  Job.updateWith sqlForPartialUpdate.setClause db id data s

/-! ## `Job.get` and `Job.remove` -/

/-- A property value of the object `Job.get` returns: a plain value or a row object. -/
inductive JSProp where
  | val (v : JSVal)
  | obj (o : JSObj)
  deriving DecidableEq, Repr

/-- The element `rows[0]` of a query result: the first row, `undefined` when there is none. -/
def firstRow (rows : List JSObj) : JSProp :=
  match rows with
  | [] => .val .undefined
  | row :: _ => .obj row

/-- Lines 100-106: the SQL text of the job lookup of `Job.get`. -/
def Job.getJobSql : String :=
  "SELECT id,\n" ++
  "                  title,\n" ++
  "                  salary,\n" ++
  "                  equity,\n" ++
  "                  company_handle AS \"companyHandle\"\n" ++
  "           FROM jobs\n" ++
  "           WHERE id = $1"

/-- Lines 118-124: the SQL text of the company lookup of `Job.get`. -/
def Job.getCompanySql : String :=
  "SELECT handle,\n" ++
  "                    name,\n" ++
  "                    num_employees AS \"numEmployees\",\n" ++
  "                    description,\n" ++
  "                    logo_url AS \"logoUrl\"\n" ++
  "            FROM companies\n" ++
  "            WHERE handle = $1"

/-- The method `Job.get(id)`: the job lookup, the `NotFoundError` when it has no row
(`jobRes.rows.length === 0`), then the object built from its first row, the company
lookup by that row's `companyHandle`, and `job.company = companyRes.rows[0]`. -/
def Job.get {σ : Type} (db : Db σ) (id : JSVal) (s : σ) :
    Except JSError (List (String × JSProp)) × σ :=
  match db.query Job.getJobSql [id] s with
  | (.error e, s1) => (.error e, s1)
  | (.ok rows, s1) =>
    match rows with
    | [] => (.error (.NotFoundError ("No job with id of " ++ id.toStr)), s1)
    | row0 :: _ =>
      let companyHandle := JSObj.get row0 "companyHandle"
      let job : List (String × JSProp) :=
        [("id", .val (JSObj.get row0 "id")),
         ("title", .val (JSObj.get row0 "title")),
         ("salary", .val (JSObj.get row0 "salary")),
         ("equity", .val (JSObj.get row0 "equity"))]
      match db.query Job.getCompanySql [companyHandle] s1 with
      | (.error e, s2) => (.error e, s2)
      | (.ok companyRows, s2) => (.ok (job ++ [("company", firstRow companyRows)]), s2)

/-- Lines 175-178: the SQL text of `Job.remove`. -/
def Job.removeSql : String :=
  "DELETE\n" ++
  "           FROM jobs\n" ++
  "           WHERE id = $1\n" ++
  "           RETURNING id"

/-- The method `Job.remove(id)`: the one statement, and the `NotFoundError` when
`result.rows[0]` is missing; it returns nothing. -/
def Job.remove {σ : Type} (db : Db σ) (id : JSVal) (s : σ) : Except JSError Unit × σ :=
  match db.query Job.removeSql [id] s with
  | (.error e, s1) => (.error e, s1)
  | (.ok rows, s1) =>
    match rows.head? with
    | none => (.error (.NotFoundError ("No job with id of " ++ id.toStr)), s1)
    | some _ => (.ok (), s1)

/-- A database that answers each query with the next result of a prepared list, and
with no row once the list is used up. -/
def Db.scripted : Db (List (List JSObj)) where
  query := fun _ _ script =>
    match script with
    | [] => (.ok [], [])
    | rows :: rest => (.ok rows, rest)

/-! ## A reading of the filter clause on job rows

The SQL engine is outside the sources. The definitions of this section give the clause
built by `Job.filter` the reading under which its results are compared with a
re-application of the predicates in memory: `ILIKE` with a pattern `%t%` is a
case-insensitive substring match, `salary >= $n` an inclusive lower bound. -/

/-- A predicate of a filter clause that has a reading, with the number of its placeholder. -/
inductive Predicate where
  | titleILike (n : Nat)
  | salaryAtLeast (n : Nat)
  deriving DecidableEq, Repr

/-- Split the characters of a clause at each ` AND `; `skip` counts the characters of a
separator still to pass over, `cur` holds the current piece, last character first. -/
def splitOnAnd : Nat → List Char → List Char → List (List Char)
  | _, cur, [] => [cur.reverse]
  | skip + 1, cur, _ :: rest => splitOnAnd skip cur rest
  | 0, cur, c :: rest =>
    if " AND ".toList.isPrefixOf (c :: rest) then cur.reverse :: splitOnAnd 4 [] rest
    else splitOnAnd 0 (c :: cur) rest

/-- Read one predicate text: `title ILIKE $n` or `salary >= $n`. -/
def parsePredicate (pred : String) : Option Predicate :=
  match placeholders pred with
  | [n] =>
    if pred = "title ILIKE $" ++ toString n then some (.titleILike n)
    else if pred = "salary >= $" ++ toString n then some (.salaryAtLeast n)
    else none
  | _ => none

/-- Read each piece of a clause as a predicate; `none` if a piece has no reading. -/
def parsePredicates : List (List Char) → Option (List Predicate)
  | [] => some []
  | piece :: rest =>
    match parsePredicate (String.mk piece), parsePredicates rest with
    | some p, some ps => some (p :: ps)
    | _, _ => none

/-- Read a clause as a conjunction of predicates. -/
def parseClause (clause : String) : Option (List Predicate) :=
  parsePredicates (splitOnAnd 0 [] clause.toList)

/-- The value bound to placeholder `$n` by a values list. -/
def boundValue (values : List JSVal) : Nat → Option JSVal
  | 0 => none
  | k + 1 => values[k]?

/-- Case-insensitive substring match: `needle` occurs in `hay`, letter case aside. -/
def containsIgnoringCase (hay needle : List Char) : Bool :=
  decide (List.IsInfix (needle.map Char.toLower) (hay.map Char.toLower))

/-- The reading of `title ILIKE` with the pattern `%t%` on a title: the title contains
`t`, letter case aside. -/
def ilikeSubstring (title : JSVal) (pattern : JSVal) : Bool :=
  match title, pattern with
  | .str title, .str pattern =>
    match pattern.toList with
    | '%' :: rest =>
      if rest.getLast? = some '%' then containsIgnoringCase title.toList rest.dropLast
      else false
    | _ => false
  | _, _ => false

/-- The reading of `salary >=` on a salary: an inclusive lower bound. -/
def atLeast (salary : JSVal) (bound : JSVal) : Bool :=
  match salary, bound with
  | .num salary, .num bound => decide (bound ≤ salary)
  | _, _ => false

/-- Whether a row satisfies a predicate under a values list. -/
def Predicate.holds (values : List JSVal) (row : JSObj) : Predicate → Bool
  | .titleILike n =>
    match boundValue values n with
    | some pattern => ilikeSubstring (JSObj.get row "title") pattern
    | none => false
  | .salaryAtLeast n =>
    match boundValue values n with
    | some bound => atLeast (JSObj.get row "salary") bound
    | none => false

/-- The rows a clause selects under a values list; `none` if the clause has no reading. -/
def selectedRows (clause : String) (values : List JSVal) (rows : List JSObj) :
    Option (List JSObj) :=
  (parseClause clause).map fun predicates =>
    rows.filter fun row => predicates.all (Predicate.holds values row)

/-! ## The Express app (`app.js`) and the jobs router (`routes/jobs.js`)

The middleware installed before the routers (`cors`, `express.json`, `morgan`,
`authenticateJWT`) answers no `GET` request itself and passes it on; it is left out.
The routers `routes/auth`, `routes/companies`, `routes/users` and the class
`NotFoundError` of `expressError` are not among the sources and are parameters. -/

/-- An HTTP request as routing reads it: the method, the path without the query
string, and the `authorization` header, absent for an anonymous request. -/
structure Request where
  method : String
  path : String
  authorization : Option String
  deriving DecidableEq, Repr

/-- The body of a JSON response: the jobs listing, the error body, or any other body. -/
inductive Body where
  | jobs (rows : List JSObj)
  | error (message : String) (status : Nat)
  | other (text : String)
  deriving DecidableEq, Repr

/-- An HTTP response: status code and JSON body. -/
structure Response where
  status : Nat
  body : Body
  deriving DecidableEq, Repr

/-- An error handed to `next`: its `message` and its `status`, if it has one. -/
structure ExpressError where
  message : String
  status : Option Nat
  deriving DecidableEq, Repr

/-- A router mounted in the app: it answers a request or passes it on (`none`). -/
abbrev Router (σ : Type) := Request → σ → Option (Response × σ)

/-- The three routers `app.js` requires and mounts. -/
structure Routers (σ : Type) where
  authRoutes : Router σ
  companiesRoutes : Router σ
  usersRoutes : Router σ

/-- Whether `app.use(mount, router)` hands a path to the router: the path is the mount
path or continues it after a slash, letter case aside. -/
def mounted (mount path : String) : Bool :=
  let p := path.toList.map Char.toLower
  p == mount.toList || (mount.toList ++ ['/']).isPrefixOf p

/-- Lines 35-43 of `app.js`, the generic error handler: status `err.status || 500` and
the body `error: message, status`. -/
def errorHandler (err : ExpressError) : Response :=
  let status := match err.status with
    | some n => if n = 0 then 500 else n
    | none => 500
  { status := status, body := .error err.message status }

/-- Lines 24-43 of `app.js`: the routers mounted at `/auth`, `/companies` and `/users`
in turn, then the handler that matches everything and hands `new NotFoundError()` to
the error handler. -/
def app {σ : Type} (routers : Routers σ) (notFoundError : ExpressError) (req : Request)
    (s : σ) : Response × σ :=
  match (if mounted "/auth" req.path then routers.authRoutes req s else none) with
  | some answer => answer
  | none =>
    match (if mounted "/companies" req.path then routers.companiesRoutes req s else none) with
    | some answer => answer
    | none =>
      match (if mounted "/users" req.path then routers.usersRoutes req s else none) with
      | some answer => answer
      | none => (errorHandler notFoundError, s)

/-- Line 20 of `routes/jobs.js`: the SQL text of the handler of `GET /`. -/
def jobsRoutes.getRootSql : String := "SELECT * FROM jobs"

/-- Lines 19-22 of `routes/jobs.js`: the handler of `GET /` of the jobs router, which
responds with `jobs: jobs.rows`; a failed query is not caught and no response is sent. -/
def jobsRoutes.getRoot {σ : Type} (db : Db σ) (s : σ) : Option Response × σ :=
  match db.query jobsRoutes.getRootSql [] s with
  | (.ok rows, s1) => (some { status := 200, body := .jobs rows }, s1)
  | (.error _, s1) => (none, s1)

/-- A database that also keeps, in the store, the list of the queries it was sent. -/
def Db.recording {σ : Type} (db : Db σ) : Db (σ × List (String × List JSVal)) where
  query := fun text values st =>
    ((db.query text values st.1).1, ((db.query text values st.1).2, st.2 ++ [(text, values)]))

/-- The fragments the builder's loop appends for the fields `data` when `n` values are
already bound. -/
def assignmentsFrom (jsToSql : List (String × String)) : Nat → JSObj → List String
  | _, [] => []
  | n, (k, _) :: rest =>
    (columnFor jsToSql k ++ " = $" ++ toString (n + 1)) :: assignmentsFrom jsToSql (n + 1) rest

/-- The number a run of decimal digits spells, continuing from `acc`. -/
def digitsValue (acc : Nat) (ds : List Char) : Nat :=
  ds.foldl (fun a c => 10 * a + (c.toNat - 48)) acc

/-- A character that SQL treats as blank space. -/
def isBlank (c : Char) : Bool := c = ' ' || c = '\n' || c = '\t' || c = '\r'

/-! ## Helper lemmas -/

/-- Reading a property does not depend on the order of the other properties. -/
theorem JSObj.get_perm {f g : JSObj} (hf : JSObj.WellFormed f) (hp : List.Perm f g)
    (key : String) : JSObj.get f key = JSObj.get g key := by
  induction hp with
  | nil => rfl
  | cons x _ ih =>
    obtain ⟨k, v⟩ := x
    have hf2 : JSObj.WellFormed _ := (List.nodup_cons.mp hf).2
    simp only [JSObj.get, ih hf2]
  | swap x y l =>
    obtain ⟨k1, v1⟩ := x
    obtain ⟨k2, v2⟩ := y
    have hne : k2 ≠ k1 := by
      intro h
      have := (List.nodup_cons.mp hf).1
      simp [h] at this
    simp only [JSObj.get]
    by_cases h1 : k1 = key
    · by_cases h2 : k2 = key
      · exact absurd (h2.trans h1.symm) hne
      · simp [h1, h2]
    · simp [h1]
  | trans h12 _ ih1 ih2 =>
    have hf2 : JSObj.WellFormed _ := (List.Perm.nodup_iff (h12.map Prod.fst)).mp hf
    exact (ih1 hf).trans (ih2 hf2)

/-- The builder reads its argument only through the three recognised keys. -/
theorem Job.filterBuild_congr {f g : JSObj}
    (ht : JSObj.get f "title" = JSObj.get g "title")
    (hm : JSObj.get f "minSalary" = JSObj.get g "minSalary")
    (he : (JSObj.get f "hasEquity").truthy = (JSObj.get g "hasEquity").truthy) :
    Job.filterBuild f = Job.filterBuild g := by
  unfold Job.filterBuild
  rw [ht, hm, he]

/-- The predicate list `Job.filter` ends with, by which of the three keys are truthy. -/
theorem Job.filterBuild_queries (filters : JSObj) :
    (Job.filterBuild filters).queries
      = (if (JSObj.get filters "title").truthy then ["title ILIKE $1"] else [])
        ++ (if (JSObj.get filters "minSalary").truthy then
              [if (JSObj.get filters "title").truthy then "salary >= $2" else "salary >= $1"]
            else [])
        ++ (if (JSObj.get filters "hasEquity").truthy then ["equity > 0"] else []) := by
  unfold Job.filterBuild
  generalize (JSObj.get filters "title").truthy = b1
  generalize (JSObj.get filters "minSalary").truthy = b2
  generalize (JSObj.get filters "hasEquity").truthy = b3
  cases b1 <;> cases b2 <;> cases b3 <;> simp <;> decide

/-- The values list `Job.filter` ends with, by which of `title`, `minSalary` are truthy. -/
theorem Job.filterBuild_values (filters : JSObj) :
    (Job.filterBuild filters).values
      = (if (JSObj.get filters "title").truthy then
            [JSVal.str ("%" ++ (JSObj.get filters "title").toStr ++ "%")] else [])
        ++ (if (JSObj.get filters "minSalary").truthy then
              [JSObj.get filters "minSalary"] else []) := by
  unfold Job.filterBuild
  generalize (JSObj.get filters "title").truthy = b1
  generalize (JSObj.get filters "minSalary").truthy = b2
  generalize (JSObj.get filters "hasEquity").truthy = b3
  cases b1 <;> cases b2 <;> cases b3 <;> rfl

/-- What `Job.filter` does, in terms of the text and the values it builds. -/
theorem Job.filter_eq_query {σ : Type} (db : Db σ) (filters : JSObj) (s : σ) :
    Job.filter db filters s
      = db.query (Job.filterSql filters) (Job.filterValues filters) s := rfl

/-! ## Placeholders of the filter clause -/

/-- C1: for every filter spec, the placeholders of the clause `Job.filter` builds (and
of the whole SQL text it issues) are exactly `$1 .. $k`, left to right, with `k` the
length of the values list; `equity > 0` holds no placeholder and `hasEquity` adds no
value, the values being one per truthy `title` and one per truthy `minSalary`. -/
theorem Job.filter_placeholders_contiguous (filters : JSObj) :
    placeholders (Job.filterClause filters)
        = List.range' 1 (Job.filterValues filters).length
      ∧ placeholders (Job.filterSql filters)
        = List.range' 1 (Job.filterValues filters).length
      ∧ placeholders "equity > 0" = []
      ∧ (Job.filterValues filters).length
        = (if (JSObj.get filters "title").truthy then 1 else 0)
          + (if (JSObj.get filters "minSalary").truthy then 1 else 0) := by
  unfold Job.filterSql Job.filterClause Job.filterValues
  rw [Job.filterBuild_queries, Job.filterBuild_values]
  generalize (JSObj.get filters "title").truthy = b1
  generalize (JSObj.get filters "minSalary").truthy = b2
  generalize (JSObj.get filters "hasEquity").truthy = b3
  cases b1 <;> cases b2 <;> cases b3 <;> refine ⟨?_, ?_, ?_, ?_⟩ <;> first | decide | rfl

/-! ## Order of the predicates -/

/-- C2: for every filter spec, the clause is the contributed predicates joined with
`" AND "` in the order title, minSalary, hasEquity, the values follow that order, and a
spec holding the same key/value pairs in another key order gives the same clause, the
same values and the same query. -/
theorem Job.filter_fixed_order (f g : JSObj) (hf : JSObj.WellFormed f)
    (hperm : List.Perm f g) :
    Job.filterClause f
        = " AND ".intercalate
            ((if (JSObj.get f "title").truthy then ["title ILIKE $1"] else [])
              ++ (if (JSObj.get f "minSalary").truthy then
                    [if (JSObj.get f "title").truthy then "salary >= $2" else "salary >= $1"]
                  else [])
              ++ (if (JSObj.get f "hasEquity").truthy then ["equity > 0"] else []))
      ∧ Job.filterValues f
        = (if (JSObj.get f "title").truthy then
              [JSVal.str ("%" ++ (JSObj.get f "title").toStr ++ "%")] else [])
          ++ (if (JSObj.get f "minSalary").truthy then [JSObj.get f "minSalary"] else [])
      ∧ Job.filterClause f = Job.filterClause g
      ∧ Job.filterValues f = Job.filterValues g
      ∧ ∀ (σ : Type) (db : Db σ) (s : σ), Job.filter db f s = Job.filter db g s := by
  have hb : Job.filterBuild f = Job.filterBuild g :=
    Job.filterBuild_congr (JSObj.get_perm hf hperm _) (JSObj.get_perm hf hperm _)
      (congrArg JSVal.truthy (JSObj.get_perm hf hperm _))
  refine ⟨?_, ?_, ?_, ?_, ?_⟩
  · unfold Job.filterClause
    rw [Job.filterBuild_queries]
  · unfold Job.filterValues
    rw [Job.filterBuild_values]
  · unfold Job.filterClause
    rw [hb]
  · unfold Job.filterValues
    rw [hb]
  · intro σ db s
    unfold Job.filter
    rw [hb]

/-- Witness of C2: the three keys of the route test, written in two different orders. -/
theorem Job.filter_fixed_order_witness :
    JSObj.WellFormed
        [("hasEquity", JSVal.bool true), ("minSalary", JSVal.num 1000),
          ("title", JSVal.str "engineer")]
      ∧ List.Perm
          [("hasEquity", JSVal.bool true), ("minSalary", JSVal.num 1000),
            ("title", JSVal.str "engineer")]
          [("title", JSVal.str "engineer"), ("minSalary", JSVal.num 1000),
            ("hasEquity", JSVal.bool true)]
      ∧ Job.filterClause
          [("hasEquity", JSVal.bool true), ("minSalary", JSVal.num 1000),
            ("title", JSVal.str "engineer")]
        = Job.filterClause
          [("title", JSVal.str "engineer"), ("minSalary", JSVal.num 1000),
            ("hasEquity", JSVal.bool true)]
      ∧ Job.filterValues
          [("hasEquity", JSVal.bool true), ("minSalary", JSVal.num 1000),
            ("title", JSVal.str "engineer")]
        = Job.filterValues
          [("title", JSVal.str "engineer"), ("minSalary", JSVal.num 1000),
            ("hasEquity", JSVal.bool true)] :=
  have hw : JSObj.WellFormed
      [("hasEquity", JSVal.bool true), ("minSalary", JSVal.num 1000),
        ("title", JSVal.str "engineer")] := by
    unfold JSObj.WellFormed JSObj.keys
    decide
  have hp : List.Perm
      [("hasEquity", JSVal.bool true), ("minSalary", JSVal.num 1000),
        ("title", JSVal.str "engineer")]
      [("title", JSVal.str "engineer"), ("minSalary", JSVal.num 1000),
        ("hasEquity", JSVal.bool true)] :=
    (List.Perm.swap _ _ _).trans ((List.Perm.cons _ (List.Perm.swap _ _ _)).trans
      (List.Perm.swap _ _ _))
  have h := Job.filter_fixed_order _ _ hw hp
  ⟨hw, hp, h.2.2.1, h.2.2.2.1⟩

/-! ## The three predicates -/

/-- C3 as stated fails at `title: 5`: the title is no string, yet the truthiness test
passes, `title ILIKE $1` is the one predicate and the value bound to it is `%5%`. -/
theorem Job.filter_title_predicate_counterexample :
    ¬ ("title ILIKE $1" ∈ (Job.filterBuild [("title", JSVal.num 5)]).queries
        ↔ ∃ t, JSObj.get [("title", JSVal.num 5)] "title" = JSVal.str t ∧ t ≠ "")
      ∧ (Job.filterBuild [("title", JSVal.num 5)]).queries = ["title ILIKE $1"]
      ∧ Job.filterValues [("title", JSVal.num 5)] = [JSVal.str "%5%"] := by
  have hq : (Job.filterBuild [("title", JSVal.num 5)]).queries = ["title ILIKE $1"] := by
    decide
  have hget : JSObj.get [("title", JSVal.num 5)] "title" = JSVal.num 5 := by decide
  refine ⟨?_, hq, by decide⟩
  intro h
  obtain ⟨t, ht, _⟩ := h.mp (by rw [hq]; exact List.mem_singleton.mpr rfl)
  rw [hget] at ht
  cases ht

/-- C3, amended: for every filter spec, a title predicate is contributed exactly when
`title` is truthy, which for a string title means non-empty; it is then
`title ILIKE $1`, stands first, and the first bound value is `%`, the string form of
the title, `%`, a string title being unaltered; when it is not contributed, every
predicate is a salary or an equity one. -/
theorem Job.filter_title_predicate (filters : JSObj) :
    ("title ILIKE $1" ∈ (Job.filterBuild filters).queries
        ↔ (JSObj.get filters "title").truthy = true)
      ∧ ((JSObj.get filters "title").truthy = true →
          (Job.filterBuild filters).queries.head? = some "title ILIKE $1"
            ∧ (Job.filterValues filters).head?
              = some (JSVal.str ("%" ++ (JSObj.get filters "title").toStr ++ "%")))
      ∧ ((JSObj.get filters "title").truthy = false →
          ∀ q ∈ (Job.filterBuild filters).queries, q = "salary >= $1" ∨ q = "equity > 0")
      ∧ (∀ t, JSObj.get filters "title" = JSVal.str t →
          ((JSObj.get filters "title").truthy = true ↔ t ≠ "")
            ∧ (JSObj.get filters "title").toStr = t) := by
  unfold Job.filterValues
  rw [Job.filterBuild_queries, Job.filterBuild_values]
  refine ⟨?_, ?_, ?_, ?_⟩
  · generalize (JSObj.get filters "title").truthy = b1
    generalize (JSObj.get filters "minSalary").truthy = b2
    generalize (JSObj.get filters "hasEquity").truthy = b3
    cases b1 <;> cases b2 <;> cases b3 <;> simp
  · intro hb
    rw [hb]
    simp
  · intro hb
    rw [hb]
    generalize (JSObj.get filters "minSalary").truthy = b2
    generalize (JSObj.get filters "hasEquity").truthy = b3
    cases b2 <;> cases b3 <;> simp
  · intro t ht
    rw [ht]
    simp [JSVal.truthy, JSVal.toStr]

/-- Witness of C3: the spec `title: "librarian"` of the model test. -/
theorem Job.filter_title_predicate_witness :
    (JSObj.get [("title", JSVal.str "librarian")] "title").truthy = true
      ∧ (Job.filterBuild [("title", JSVal.str "librarian")]).queries.head?
          = some "title ILIKE $1"
      ∧ (Job.filterValues [("title", JSVal.str "librarian")]).head?
          = some (JSVal.str
              ("%" ++ (JSObj.get [("title", JSVal.str "librarian")] "title").toStr ++ "%")) :=
  have hb : (JSObj.get [("title", JSVal.str "librarian")] "title").truthy = true := by
    decide
  have h := (Job.filter_title_predicate [("title", JSVal.str "librarian")]).2.1 hb
  ⟨hb, h.1, h.2⟩

/-- C4 at `minSalary: 0`: a numeric `minSalary` of 0 is present, yet `Job.filter`
contributes no `salary >=` predicate and binds no value, alone (where the clause is
empty) and next to a title (where only the title predicate is left). -/
theorem Job.filter_minSalary_zero :
    JSObj.get [("minSalary", JSVal.num 0)] "minSalary" = JSVal.num 0
      ∧ (Job.filterBuild [("minSalary", JSVal.num 0)]).queries = []
      ∧ Job.filterValues [("minSalary", JSVal.num 0)] = []
      ∧ Job.filterSql [("minSalary", JSVal.num 0)] = Job.filterSqlOf ""
      ∧ (Job.filterBuild [("title", JSVal.str "a"), ("minSalary", JSVal.num 0)]).queries
          = ["title ILIKE $1"]
      ∧ Job.filterValues [("title", JSVal.str "a"), ("minSalary", JSVal.num 0)]
          = [JSVal.str "%a%"]
      ∧ (Job.filterBuild [("minSalary", JSVal.num 75000)]).queries = ["salary >= $1"]
      ∧ Job.filterValues [("minSalary", JSVal.num 75000)] = [JSVal.num 75000] := by
  refine ⟨?_, ?_, ?_, ?_, ?_, ?_, ?_, ?_⟩ <;> decide

/-- C5: for the filter spec whose only key is `hasEquity: true`, the predicates are
exactly `equity > 0`, the clause is that text, and the values list is empty. -/
theorem Job.filter_only_hasEquity :
    (Job.filterBuild [("hasEquity", JSVal.bool true)]).queries = ["equity > 0"]
      ∧ Job.filterClause [("hasEquity", JSVal.bool true)] = "equity > 0"
      ∧ Job.filterValues [("hasEquity", JSVal.bool true)] = []
      ∧ ∀ (σ : Type) (db : Db σ) (s : σ),
          Job.filter db [("hasEquity", JSVal.bool true)] s
            = db.query (Job.filterSqlOf "equity > 0") [] s := by
  refine ⟨by decide, by decide, by decide, ?_⟩
  intro σ db s
  rw [Job.filter_eq_query]
  have h1 : Job.filterSql [("hasEquity", JSVal.bool true)]
      = Job.filterSqlOf "equity > 0" := by decide
  have h2 : Job.filterValues [("hasEquity", JSVal.bool true)] = [] := by decide
  rw [h1, h2]

/-- C6: whatever `title` and `minSalary` are, a filter spec with `hasEquity: false`
makes `Job.filter` issue the same SQL text, the same values and the same query as a
spec with the same `title` and `minSalary` and no `hasEquity`; no equity predicate is
among its predicates, neither `equity > 0` nor `equity = 0`. -/
theorem Job.filter_hasEquity_false (f g : JSObj)
    (ht : JSObj.get f "title" = JSObj.get g "title")
    (hm : JSObj.get f "minSalary" = JSObj.get g "minSalary")
    (hfalse : JSObj.get f "hasEquity" = JSVal.bool false)
    (habsent : JSObj.get g "hasEquity" = JSVal.undefined) :
    Job.filterSql f = Job.filterSql g
      ∧ Job.filterValues f = Job.filterValues g
      ∧ (∀ (σ : Type) (db : Db σ) (s : σ), Job.filter db f s = Job.filter db g s)
      ∧ (∀ q ∈ (Job.filterBuild f).queries,
          q = "title ILIKE $1" ∨ q = "salary >= $1" ∨ q = "salary >= $2") := by
  have hb : Job.filterBuild f = Job.filterBuild g :=
    Job.filterBuild_congr ht hm (by rw [hfalse, habsent]; rfl)
  refine ⟨?_, ?_, ?_, ?_⟩
  · unfold Job.filterSql Job.filterClause
    rw [hb]
  · unfold Job.filterValues
    rw [hb]
  · intro σ db s
    unfold Job.filter
    rw [hb]
  · rw [Job.filterBuild_queries, hfalse]
    generalize (JSObj.get f "title").truthy = b1
    generalize (JSObj.get f "minSalary").truthy = b2
    cases b1 <;> cases b2 <;> simp [JSVal.truthy]

/-- Witness of C6: the model test `hasEquity: false, minSalary: 55000` against
`minSalary: 55000` alone. -/
theorem Job.filter_hasEquity_false_witness :
    JSObj.get [("hasEquity", JSVal.bool false), ("minSalary", JSVal.num 55000)] "hasEquity"
        = JSVal.bool false
      ∧ JSObj.get [("minSalary", JSVal.num 55000)] "hasEquity" = JSVal.undefined
      ∧ Job.filterSql [("hasEquity", JSVal.bool false), ("minSalary", JSVal.num 55000)]
          = Job.filterSql [("minSalary", JSVal.num 55000)]
      ∧ Job.filterValues [("hasEquity", JSVal.bool false), ("minSalary", JSVal.num 55000)]
          = Job.filterValues [("minSalary", JSVal.num 55000)] :=
  have h := Job.filter_hasEquity_false
    [("hasEquity", JSVal.bool false), ("minSalary", JSVal.num 55000)]
    [("minSalary", JSVal.num 55000)] (by decide) (by decide) (by decide) (by decide)
  ⟨by decide, by decide, h.1, h.2.1⟩

/-! ## The empty clause -/

/-- C7: for every filter spec that contributes zero predicates, the clause is the empty
string, the values list is empty, and `Job.filter` still issues its query: the text has
`WHERE`, then blanks only, then `ORDER BY`, and it is not the text of the unfiltered
listing `Job.findAll`. -/
theorem Job.filter_no_predicates (filters : JSObj)
    (hzero : (Job.filterBuild filters).queries = []) :
    Job.filterClause filters = ""
      ∧ Job.filterValues filters = []
      ∧ (∀ (σ : Type) (db : Db σ) (s : σ),
          Job.filter db filters s = db.query (Job.filterSqlOf "") [] s)
      ∧ (∃ before blanks : String,
          Job.filterSql filters = before ++ "WHERE" ++ blanks ++ "ORDER BY id DESC"
            ∧ blanks.toList.all isBlank = true)
      ∧ Job.filterSql filters ≠ Job.findAllSql := by
  have hc : Job.filterClause filters = "" := by
    unfold Job.filterClause
    rw [hzero]
    decide
  have hv : Job.filterValues filters = [] := by
    have h := hzero
    rw [Job.filterBuild_queries] at h
    unfold Job.filterValues
    rw [Job.filterBuild_values]
    revert h
    generalize (JSObj.get filters "title").truthy = b1
    generalize (JSObj.get filters "minSalary").truthy = b2
    generalize (JSObj.get filters "hasEquity").truthy = b3
    cases b1 <;> cases b2 <;> cases b3 <;> simp
  have hs : Job.filterSql filters = Job.filterSqlOf "" := by
    unfold Job.filterSql
    rw [hc]
  refine ⟨hc, hv, ?_, ?_, ?_⟩
  · intro σ db s
    rw [Job.filter_eq_query, hs, hv]
  · refine ⟨"SELECT id, \n                  title,\n                  salary,\n" ++
        "                  equity, \n" ++
        "                  company_handle AS \"companyHandle\"\n          FROM jobs\n          ",
      "  \n          ", ?_, ?_⟩
    · rw [hs]
      decide
    · decide
  · rw [hs]
    decide

/-- Witness of C7: the empty object and the object holding only `hasEquity: false`
contribute zero predicates. -/
theorem Job.filter_no_predicates_witness :
    (Job.filterBuild []).queries = []
      ∧ (Job.filterBuild [("hasEquity", JSVal.bool false)]).queries = []
      ∧ Job.filterClause [] = ""
      ∧ Job.filterValues [("hasEquity", JSVal.bool false)] = []
      ∧ Job.filterSql [("hasEquity", JSVal.bool false)] ≠ Job.findAllSql :=
  ⟨by decide, by decide, (Job.filter_no_predicates [] (by decide)).1,
    (Job.filter_no_predicates [("hasEquity", JSVal.bool false)] (by decide)).2.1,
    (Job.filter_no_predicates [("hasEquity", JSVal.bool false)] (by decide)).2.2.2.2⟩

/-! ## The SQL text holds no value of the filter spec -/

/-- C8: for any two filter specs in which the same keys among `title`, `minSalary`,
`hasEquity` contribute a predicate, `Job.filter` passes the same SQL text to the query
interface, whatever the values of the keys; the values reach the query only in the
values list, which is what the query is issued with. -/
theorem Job.filter_sql_independent_of_values (f g : JSObj)
    (ht : (JSObj.get f "title").truthy = (JSObj.get g "title").truthy)
    (hm : (JSObj.get f "minSalary").truthy = (JSObj.get g "minSalary").truthy)
    (he : (JSObj.get f "hasEquity").truthy = (JSObj.get g "hasEquity").truthy) :
    Job.filterSql f = Job.filterSql g
      ∧ (∀ (σ : Type) (db : Db σ) (s : σ),
          Job.filter db f s = db.query (Job.filterSql g) (Job.filterValues f) s) := by
  have hs : Job.filterSql f = Job.filterSql g := by
    unfold Job.filterSql Job.filterClause
    rw [Job.filterBuild_queries, Job.filterBuild_queries, ht, hm, he]
  refine ⟨hs, ?_⟩
  intro σ db s
  rw [Job.filter_eq_query, hs]

/-- Witness of C8: two specs with different titles and salaries, both contributing the
title and the salary predicates. -/
theorem Job.filter_sql_independent_of_values_witness :
    Job.filterSql [("title", JSVal.str "x\x27 OR 1=1"), ("minSalary", JSVal.num 7)]
        = Job.filterSql [("title", JSVal.str "librarian"), ("minSalary", JSVal.num 75000)]
      ∧ Job.filterValues [("title", JSVal.str "x\x27 OR 1=1"), ("minSalary", JSVal.num 7)]
        = [JSVal.str "%x\x27 OR 1=1%", JSVal.num 7] :=
  ⟨(Job.filter_sql_independent_of_values
      [("title", JSVal.str "x\x27 OR 1=1"), ("minSalary", JSVal.num 7)]
      [("title", JSVal.str "librarian"), ("minSalary", JSVal.num 75000)]
      (by decide) (by decide) (by decide)).1, by decide⟩

/-! ## `Job.update` and the partial-update builder -/

/-- The builder's loop, in closed form. -/
theorem sqlForPartialUpdate.foldl_step (jsToSql : List (String × String)) (data : JSObj)
    (acc : PartialUpdate) :
    data.foldl (sqlForPartialUpdate.step jsToSql) acc
      = { assignments := acc.assignments ++ assignmentsFrom jsToSql acc.values.length data,
          values := acc.values ++ data.map Prod.snd } := by
  induction data generalizing acc with
  | nil => simp [assignmentsFrom]
  | cons x rest ih =>
    obtain ⟨k, v⟩ := x
    rw [List.foldl_cons, ih]
    simp [sqlForPartialUpdate.step, assignmentsFrom]

/-- The fragments are as many as the fields. -/
theorem assignmentsFrom_length (jsToSql : List (String × String)) (n : Nat) (data : JSObj) :
    (assignmentsFrom jsToSql n data).length = data.length := by
  induction data generalizing n with
  | nil => rfl
  | cons x rest ih =>
    obtain ⟨k, v⟩ := x
    simp [assignmentsFrom, ih]

/-- The fragment at index `i` names the column of field `i` and the position `n + i + 1`. -/
theorem assignmentsFrom_getElem? (jsToSql : List (String × String)) (n : Nat) (data : JSObj)
    (i : Nat) (k : String) (v : JSVal) (h : data[i]? = some (k, v)) :
    (assignmentsFrom jsToSql n data)[i]?
      = some (columnFor jsToSql k ++ " = $" ++ toString (n + i + 1)) := by
  induction data generalizing n i with
  | nil => simp at h
  | cons x rest ih =>
    obtain ⟨k0, v0⟩ := x
    cases i with
    | zero =>
      simp at h
      simp [assignmentsFrom, h.1]
    | succ j =>
      simp at h
      have e : n + 1 + j + 1 = n + (j + 1) + 1 := by omega
      have := ih (n + 1) j h
      rw [e] at this
      simpa [assignmentsFrom] using this

/-- C9 at `data` with zero fields: for every id, `Job.update(id, data)` fails before any
query, and the store is as it was, also on a database that records the queries it is
sent; the failure is the one of the builder, which `Job.update` passes on as it is
whatever it is, and for the builder of the spec that is `EmptyInputError`, a kind other
than the `BadRequestError` of the claim and of the model test. -/
theorem Job.update_empty_data {σ : Type} (db : Db σ) (id : JSVal) (s : σ)
    (log : List (String × List JSVal)) :
    Job.update db id [] s = (Except.error JSError.EmptyInputError, s)
      ∧ Job.update (Db.recording db) id [] (s, log)
          = (Except.error JSError.EmptyInputError, (s, log))
      ∧ (Job.update db id [] s).1 ≠ Except.error JSError.BadRequestError
      ∧ (∀ (e : JSError) (data : JSObj),
          Job.updateWith (fun _ _ => Except.error e) db id data s = (Except.error e, s)) := by
  have h1 : Job.update db id [] s = (Except.error JSError.EmptyInputError, s) := rfl
  refine ⟨h1, rfl, ?_, fun _ _ => rfl⟩
  rw [h1]
  intro h
  cases h

/-- C10: for every non-empty field map with `n` fields, the partial-update builder
called with the mapping of `Job.update` succeeds with `n` assignments and `n` values;
the assignment at index `i` is the column of field `i` (`company_handle` for
`companyHandle`, else the field name), ` = $` and `i + 1`, and the value at index `i`
is the value of field `i`. -/
theorem sqlForPartialUpdate_positions (data : JSObj) (hne : data ≠ []) :
    ∃ built, sqlForPartialUpdate data [("companyHandle", "company_handle")] = Except.ok built
      ∧ built.assignments.length = data.length
      ∧ built.values.length = data.length
      ∧ ∀ (i : Nat) (k : String) (v : JSVal), data[i]? = some (k, v) →
          built.assignments[i]?
              = some ((if k = "companyHandle" then "company_handle" else k)
                  ++ " = $" ++ toString (i + 1))
            ∧ built.values[i]? = some v := by
  have hlen : ¬ data.length = 0 := by
    intro h
    exact hne (List.length_eq_zero.mp h)
  refine ⟨data.foldl (sqlForPartialUpdate.step [("companyHandle", "company_handle")])
    { assignments := [], values := [] }, ?_, ?_, ?_, ?_⟩
  · unfold sqlForPartialUpdate
    rw [if_neg hlen]
  · rw [sqlForPartialUpdate.foldl_step]
    simp [assignmentsFrom_length]
  · rw [sqlForPartialUpdate.foldl_step]
    simp
  · intro i k v h
    rw [sqlForPartialUpdate.foldl_step]
    constructor
    · have hcol : columnFor [("companyHandle", "company_handle")] k
          = (if k = "companyHandle" then "company_handle" else k) := by
        by_cases hk : k = "companyHandle"
        · simp [columnFor, List.lookup, hk]
        · have : (k == "companyHandle") = false := by simpa using hk
          simp [columnFor, List.lookup, this, hk]
      have := assignmentsFrom_getElem? [("companyHandle", "company_handle")] 0 data i k v h
      simpa [hcol] using this
    · simp [h]

/-- Witness of C10: the field map of the model test `update works`. -/
theorem sqlForPartialUpdate_positions_witness :
    ([("title", JSVal.str "senior librarian"), ("salary", JSVal.num 85000),
        ("equity", JSVal.num 0)] : JSObj) ≠ []
      ∧ (∃ built,
          sqlForPartialUpdate
              [("title", JSVal.str "senior librarian"), ("salary", JSVal.num 85000),
                ("equity", JSVal.num 0)]
              [("companyHandle", "company_handle")] = Except.ok built
            ∧ built.assignments.length = 3 ∧ built.values.length = 3)
      ∧ sqlForPartialUpdate
            [("title", JSVal.str "senior librarian"), ("salary", JSVal.num 85000),
              ("equity", JSVal.num 0)]
            [("companyHandle", "company_handle")]
          = Except.ok
              { assignments := ["title = $1", "salary = $2", "equity = $3"],
                values := [JSVal.str "senior librarian", JSVal.num 85000, JSVal.num 0] } :=
  have hne : ([("title", JSVal.str "senior librarian"), ("salary", JSVal.num 85000),
      ("equity", JSVal.num 0)] : JSObj) ≠ [] := by simp
  have h := sqlForPartialUpdate_positions
    [("title", JSVal.str "senior librarian"), ("salary", JSVal.num 85000),
      ("equity", JSVal.num 0)] hne
  ⟨hne, h.imp (fun _ hb => ⟨hb.1, hb.2.1, hb.2.2.1⟩), by
    unfold sqlForPartialUpdate
    rw [if_neg (by decide)]
    exact congrArg Except.ok (by decide)⟩

/-! ## `Job.get` -/

/-- C11: for every id, when the job lookup returns `rows` (and the company lookup, if
it is issued, returns `companyRows`), `Job.get(id)` fails with `NotFoundError` exactly
when `rows` is empty; then the store is as the job lookup left it and a recording
database holds the job lookup alone, so the company lookup is not issued. Otherwise the
result is `id`, `title`, `salary`, `equity` of the first job row and `company`, the first
row of the company lookup for that row's `companyHandle`; it has no `companyHandle` key. -/
theorem Job.get_not_found_iff_no_row {σ : Type} (db : Db σ) (id : JSVal) (s s1 s2 : σ)
    (rows companyRows : List JSObj) (log : List (String × List JSVal))
    (hjob : db.query Job.getJobSql [id] s = (Except.ok rows, s1))
    (hcompany : ∀ row ∈ rows.head?,
      db.query Job.getCompanySql [JSObj.get row "companyHandle"] s1
        = (Except.ok companyRows, s2)) :
    ((∃ m, (Job.get db id s).1 = Except.error (JSError.NotFoundError m)) ↔ rows = [])
      ∧ (rows = [] →
          Job.get db id s
              = (Except.error (JSError.NotFoundError ("No job with id of " ++ id.toStr)), s1)
            ∧ (Job.get (Db.recording db) id (s, log)).2
              = (s1, log ++ [(Job.getJobSql, [id])]))
      ∧ (∀ row rest, rows = row :: rest →
          Job.get db id s
              = (Except.ok
                  [("id", JSProp.val (JSObj.get row "id")),
                   ("title", JSProp.val (JSObj.get row "title")),
                   ("salary", JSProp.val (JSObj.get row "salary")),
                   ("equity", JSProp.val (JSObj.get row "equity")),
                   ("company", firstRow companyRows)], s2))
      ∧ (∀ job, (Job.get db id s).1 = Except.ok job →
          job.map Prod.fst = ["id", "title", "salary", "equity", "company"]) := by
  have hfound : ∀ row rest, rows = row :: rest →
      Job.get db id s
        = (Except.ok
            [("id", JSProp.val (JSObj.get row "id")),
             ("title", JSProp.val (JSObj.get row "title")),
             ("salary", JSProp.val (JSObj.get row "salary")),
             ("equity", JSProp.val (JSObj.get row "equity")),
             ("company", firstRow companyRows)], s2) := by
    intro row rest hrows
    subst hrows
    have hc := hcompany row (by simp)
    simp only [Job.get, hjob, hc, List.cons_append, List.nil_append]
  have hempty : rows = [] →
      Job.get db id s
        = (Except.error (JSError.NotFoundError ("No job with id of " ++ id.toStr)), s1) := by
    intro hrows
    subst hrows
    simp only [Job.get, hjob]
  refine ⟨?_, ?_, hfound, ?_⟩
  · constructor
    · rintro ⟨m, hm⟩
      cases rows with
      | nil => rfl
      | cons row rest =>
        rw [hfound row rest rfl] at hm
        cases hm
    · intro hrows
      exact ⟨_, by rw [hempty hrows]⟩
  · intro hrows
    refine ⟨hempty hrows, ?_⟩
    subst hrows
    simp only [Job.get, Db.recording, hjob]
  · intro job hjobres
    cases rows with
    | nil =>
      rw [hempty rfl] at hjobres
      cases hjobres
    | cons row rest =>
      rw [hfound row rest rfl] at hjobres
      cases hjobres
      rfl

/-- Witness of C11: the model tests of `get`, on a database prepared to answer the job
lookup with the librarian row and the company lookup with the row of `c1`, and on one
prepared to answer the job lookup with no row. -/
theorem Job.get_not_found_iff_no_row_witness :
    Job.get Db.scripted (JSVal.num 3)
        [[[("id", JSVal.num 3), ("title", JSVal.str "librarian"),
            ("salary", JSVal.num 75000), ("equity", JSVal.str "0"),
            ("companyHandle", JSVal.str "c1")]],
          [[("handle", JSVal.str "c1"), ("name", JSVal.str "C1"),
            ("numEmployees", JSVal.num 1), ("description", JSVal.str "Desc1"),
            ("logoUrl", JSVal.str "http://c1.img")]]]
      = (Except.ok
          [("id", JSProp.val (JSVal.num 3)),
           ("title", JSProp.val (JSVal.str "librarian")),
           ("salary", JSProp.val (JSVal.num 75000)),
           ("equity", JSProp.val (JSVal.str "0")),
           ("company", JSProp.obj
              [("handle", JSVal.str "c1"), ("name", JSVal.str "C1"),
               ("numEmployees", JSVal.num 1), ("description", JSVal.str "Desc1"),
               ("logoUrl", JSVal.str "http://c1.img")])], [])
      ∧ Job.get Db.scripted (JSVal.num 0) [[]]
        = (Except.error (JSError.NotFoundError ("No job with id of " ++ (JSVal.num 0).toStr)),
            []) :=
  ⟨(Job.get_not_found_iff_no_row Db.scripted (JSVal.num 3)
      [[[("id", JSVal.num 3), ("title", JSVal.str "librarian"),
          ("salary", JSVal.num 75000), ("equity", JSVal.str "0"),
          ("companyHandle", JSVal.str "c1")]],
        [[("handle", JSVal.str "c1"), ("name", JSVal.str "C1"),
          ("numEmployees", JSVal.num 1), ("description", JSVal.str "Desc1"),
          ("logoUrl", JSVal.str "http://c1.img")]]]
      [[[("handle", JSVal.str "c1"), ("name", JSVal.str "C1"),
          ("numEmployees", JSVal.num 1), ("description", JSVal.str "Desc1"),
          ("logoUrl", JSVal.str "http://c1.img")]]]
      []
      [[("id", JSVal.num 3), ("title", JSVal.str "librarian"),
        ("salary", JSVal.num 75000), ("equity", JSVal.str "0"),
        ("companyHandle", JSVal.str "c1")]]
      [[("handle", JSVal.str "c1"), ("name", JSVal.str "C1"),
        ("numEmployees", JSVal.num 1), ("description", JSVal.str "Desc1"),
        ("logoUrl", JSVal.str "http://c1.img")]] [] rfl
      (by intro row hrow; cases hrow; rfl)).2.2.1 _ _ rfl,
    ((Job.get_not_found_iff_no_row Db.scripted (JSVal.num 0) [[]] [] [] [] [] [] rfl
      (by intro row hrow; cases hrow)).2.1 rfl).1⟩

/-! ## `Job.remove` -/

/-- C12: for every id, when the `DELETE ... RETURNING id` statement returns `rows`,
`Job.remove(id)` fails with `NotFoundError` exactly when `rows` is empty, and when a row
is returned it completes without error and returns nothing; the store is as the
statement left it. -/
theorem Job.remove_not_found_iff_no_row {σ : Type} (db : Db σ) (id : JSVal) (s s1 : σ)
    (rows : List JSObj)
    (hdelete : db.query Job.removeSql [id] s = (Except.ok rows, s1)) :
    ((∃ m, (Job.remove db id s).1 = Except.error (JSError.NotFoundError m)) ↔ rows = [])
      ∧ (rows = [] →
          Job.remove db id s
            = (Except.error (JSError.NotFoundError ("No job with id of " ++ id.toStr)), s1))
      ∧ (rows ≠ [] → Job.remove db id s = (Except.ok (), s1)) := by
  cases rows with
  | nil =>
    have h : Job.remove db id s
        = (Except.error (JSError.NotFoundError ("No job with id of " ++ id.toStr)), s1) := by
      simp only [Job.remove, hdelete, List.head?_nil]
    refine ⟨⟨fun _ => rfl, fun _ => ⟨_, by rw [h]⟩⟩, fun _ => h, fun hne => absurd rfl hne⟩
  | cons row rest =>
    have h : Job.remove db id s = (Except.ok (), s1) := by
      simp only [Job.remove, hdelete, List.head?_cons]
    refine ⟨⟨?_, fun hrows => absurd hrows (List.cons_ne_nil _ _)⟩,
      fun hrows => absurd hrows (List.cons_ne_nil _ _), fun _ => h⟩
    rintro ⟨m, hm⟩
    rw [h] at hm
    cases hm

/-- Witness of C12: `remove` on a database prepared to return the deleted id, and on
one prepared to return no row. -/
theorem Job.remove_not_found_iff_no_row_witness :
    Job.remove Db.scripted (JSVal.num 3) [[[("id", JSVal.num 3)]]] = (Except.ok (), [])
      ∧ Job.remove Db.scripted (JSVal.num 0) [[]]
        = (Except.error (JSError.NotFoundError ("No job with id of " ++ (JSVal.num 0).toStr)),
            []) :=
  ⟨(Job.remove_not_found_iff_no_row Db.scripted (JSVal.num 3) [[[("id", JSVal.num 3)]]] []
      [[("id", JSVal.num 3)]] rfl).2.2 (by simp),
    (Job.remove_not_found_iff_no_row Db.scripted (JSVal.num 0) [[]] [] [] rfl).2.1 rfl⟩

/-! ## Filtering by title and minSalary together -/

/-- The reading of `ILIKE` with the pattern `%t%` is the substring match on `t`. -/
theorem ilikeSubstring_pattern (title t : String) :
    ilikeSubstring (JSVal.str title) (JSVal.str ("%" ++ t ++ "%"))
      = containsIgnoringCase title.toList t.toList := by
  have hp : ("%" ++ t ++ "%").toList = '%' :: (t.toList ++ ['%']) := by
    simp [String.toList]
  simp only [ilikeSubstring, hp]
  simp [List.getLast?_append, List.dropLast_concat]

/-- The clause and values built for a title and a minimum salary together. -/
theorem Job.filterBuild_title_minSalary (t : String) (m : Int) (ht : t ≠ "") (hm : m ≠ 0) :
    Job.filterClause [("title", JSVal.str t), ("minSalary", JSVal.num m)]
        = "title ILIKE $1 AND salary >= $2"
      ∧ Job.filterValues [("title", JSVal.str t), ("minSalary", JSVal.num m)]
        = [JSVal.str ("%" ++ t ++ "%"), JSVal.num m] := by
  have h1 : JSObj.get [("title", JSVal.str t), ("minSalary", JSVal.num m)] "title"
      = JSVal.str t := rfl
  have h2 : JSObj.get [("title", JSVal.str t), ("minSalary", JSVal.num m)] "minSalary"
      = JSVal.num m := rfl
  have h3 : JSObj.get [("title", JSVal.str t), ("minSalary", JSVal.num m)] "hasEquity"
      = JSVal.undefined := rfl
  constructor
  · unfold Job.filterClause
    rw [Job.filterBuild_queries, h1, h2, h3]
    simp [JSVal.truthy, ht, hm]
    decide
  · unfold Job.filterValues
    rw [Job.filterBuild_values, h1, h2]
    simp [JSVal.truthy, ht, hm, JSVal.toStr]

/-- The clause and values built for a title alone. -/
theorem Job.filterBuild_title_only (t : String) (ht : t ≠ "") :
    Job.filterClause [("title", JSVal.str t)] = "title ILIKE $1"
      ∧ Job.filterValues [("title", JSVal.str t)] = [JSVal.str ("%" ++ t ++ "%")] := by
  have h1 : JSObj.get [("title", JSVal.str t)] "title" = JSVal.str t := rfl
  have h2 : JSObj.get [("title", JSVal.str t)] "minSalary" = JSVal.undefined := rfl
  have h3 : JSObj.get [("title", JSVal.str t)] "hasEquity" = JSVal.undefined := rfl
  constructor
  · unfold Job.filterClause
    rw [Job.filterBuild_queries, h1, h2, h3]
    simp [JSVal.truthy, ht]
    decide
  · unfold Job.filterValues
    rw [Job.filterBuild_values, h1, h2]
    simp [JSVal.truthy, ht, JSVal.toStr]

/-- The clause and values built for a minimum salary alone. -/
theorem Job.filterBuild_minSalary_only (m : Int) (hm : m ≠ 0) :
    Job.filterClause [("minSalary", JSVal.num m)] = "salary >= $1"
      ∧ Job.filterValues [("minSalary", JSVal.num m)] = [JSVal.num m] := by
  have h1 : JSObj.get [("minSalary", JSVal.num m)] "title" = JSVal.undefined := rfl
  have h2 : JSObj.get [("minSalary", JSVal.num m)] "minSalary" = JSVal.num m := rfl
  have h3 : JSObj.get [("minSalary", JSVal.num m)] "hasEquity" = JSVal.undefined := rfl
  constructor
  · unfold Job.filterClause
    rw [Job.filterBuild_queries, h1, h2, h3]
    simp [JSVal.truthy, hm]
    decide
  · unfold Job.filterValues
    rw [Job.filterBuild_values, h1, h2]
    simp [JSVal.truthy, hm]

/-- C13: for every non-empty title `t`, every non-zero minSalary `m` and every list of
job rows, the clause built for `title: t, minSalary: m` selects exactly the rows that
the clause built for `title: t` and the clause built for `minSalary: m` both select,
with `ILIKE` and the pattern `%t%` read as the case-insensitive substring match on `t`
and `salary >= m` as an inclusive lower bound. -/
theorem Job.filter_title_minSalary_intersection (t : String) (m : Int) (ht : t ≠ "")
    (hm : m ≠ 0) (rows : List JSObj) :
    ∃ both byTitle bySalary,
      selectedRows (Job.filterClause [("title", JSVal.str t), ("minSalary", JSVal.num m)])
          (Job.filterValues [("title", JSVal.str t), ("minSalary", JSVal.num m)]) rows
        = some both
      ∧ selectedRows (Job.filterClause [("title", JSVal.str t)])
          (Job.filterValues [("title", JSVal.str t)]) rows = some byTitle
      ∧ selectedRows (Job.filterClause [("minSalary", JSVal.num m)])
          (Job.filterValues [("minSalary", JSVal.num m)]) rows = some bySalary
      ∧ (∀ row, row ∈ both ↔ row ∈ byTitle ∧ row ∈ bySalary)
      ∧ both = rows.filter (fun row =>
          ilikeSubstring (JSObj.get row "title") (JSVal.str ("%" ++ t ++ "%"))
            && atLeast (JSObj.get row "salary") (JSVal.num m))
      ∧ (∀ title, ilikeSubstring (JSVal.str title) (JSVal.str ("%" ++ t ++ "%"))
          = containsIgnoringCase title.toList t.toList)
      ∧ (∀ salary, atLeast (JSVal.num salary) (JSVal.num m) = decide (m ≤ salary)) := by
  have hp2 : parseClause "title ILIKE $1 AND salary >= $2"
      = some [Predicate.titleILike 1, Predicate.salaryAtLeast 2] := by decide
  have hpt : parseClause "title ILIKE $1" = some [Predicate.titleILike 1] := by decide
  have hpm : parseClause "salary >= $1" = some [Predicate.salaryAtLeast 1] := by decide
  obtain ⟨hc2, hv2⟩ := Job.filterBuild_title_minSalary t m ht hm
  obtain ⟨hct, hvt⟩ := Job.filterBuild_title_only t ht
  obtain ⟨hcm, hvm⟩ := Job.filterBuild_minSalary_only m hm
  refine ⟨rows.filter (fun row =>
      ilikeSubstring (JSObj.get row "title") (JSVal.str ("%" ++ t ++ "%"))
        && atLeast (JSObj.get row "salary") (JSVal.num m)),
    rows.filter (fun row =>
      ilikeSubstring (JSObj.get row "title") (JSVal.str ("%" ++ t ++ "%"))),
    rows.filter (fun row => atLeast (JSObj.get row "salary") (JSVal.num m)),
    ?_, ?_, ?_, ?_, rfl, fun title => ilikeSubstring_pattern title t, ?_⟩
  · rw [hc2, hv2]
    simp only [selectedRows, hp2, Option.map_some']
    simp [Predicate.holds, boundValue]
  · rw [hct, hvt]
    simp only [selectedRows, hpt, Option.map_some']
    simp [Predicate.holds, boundValue]
  · rw [hcm, hvm]
    simp only [selectedRows, hpm, Option.map_some']
    simp [Predicate.holds, boundValue]
  · intro row
    simp only [List.mem_filter, Bool.and_eq_true]
    tauto
  · intro salary
    rfl

/-- Witness of C13: the three jobs of the model tests, title `LIBR` and minSalary 75000;
the clause for both selects the librarian row alone. -/
theorem Job.filter_title_minSalary_intersection_witness :
    "LIBR" ≠ "" ∧ (75000 : Int) ≠ 0
      ∧ selectedRows
          (Job.filterClause [("title", JSVal.str "LIBR"), ("minSalary", JSVal.num 75000)])
          (Job.filterValues [("title", JSVal.str "LIBR"), ("minSalary", JSVal.num 75000)])
          [[("id", JSVal.num 3), ("title", JSVal.str "arborist"), ("salary", JSVal.num 55000),
            ("equity", JSVal.str "0"), ("companyHandle", JSVal.str "c3")],
          [("id", JSVal.num 2), ("title", JSVal.str "software engineer"),
            ("salary", JSVal.num 150000), ("equity", JSVal.str "0.356"),
            ("companyHandle", JSVal.str "c1")],
          [("id", JSVal.num 1), ("title", JSVal.str "librarian"), ("salary", JSVal.num 75000),
            ("equity", JSVal.str "0"), ("companyHandle", JSVal.str "c1")]]
        = some
          [[("id", JSVal.num 1), ("title", JSVal.str "librarian"), ("salary", JSVal.num 75000),
            ("equity", JSVal.str "0"), ("companyHandle", JSVal.str "c1")]] := by
  obtain ⟨both, byTitle, bySalary, hboth, _, _, _, hfilter, _, _⟩ :=
    Job.filter_title_minSalary_intersection "LIBR" 75000 (by decide) (by decide)
      [[("id", JSVal.num 3), ("title", JSVal.str "arborist"), ("salary", JSVal.num 55000),
            ("equity", JSVal.str "0"), ("companyHandle", JSVal.str "c3")],
          [("id", JSVal.num 2), ("title", JSVal.str "software engineer"),
            ("salary", JSVal.num 150000), ("equity", JSVal.str "0.356"),
            ("companyHandle", JSVal.str "c1")],
          [("id", JSVal.num 1), ("title", JSVal.str "librarian"), ("salary", JSVal.num 75000),
            ("equity", JSVal.str "0"), ("companyHandle", JSVal.str "c1")]]
  refine ⟨by decide, by decide, ?_⟩
  rw [hboth, hfilter]
  decide

/-! ## `GET /jobs` -/

/-- C14 at the anonymous request `GET /jobs`: `app.js` mounts no router at `/jobs`, so
whatever the mounted routers are, the request reaches the handler that matches
everything and is answered with the error body of `new NotFoundError()`, never with a
jobs listing, and the store is not read; the handler of `routes/jobs.js`, which the app
does not mount, issues `SELECT * FROM jobs`, not the query of `Job.findAll`. -/
theorem app_get_jobs_anonymous {σ : Type} (routers : Routers σ)
    (notFoundError : ExpressError) (s : σ) :
    app routers notFoundError { method := "GET", path := "/jobs", authorization := none } s
        = (errorHandler notFoundError, s)
      ∧ (∀ rows,
          (app routers notFoundError
            { method := "GET", path := "/jobs", authorization := none } s).1.body
            ≠ Body.jobs rows)
      ∧ (errorHandler { message := "Not Found", status := some 404 }
          = { status := 404, body := Body.error "Not Found" 404 })
      ∧ jobsRoutes.getRootSql ≠ Job.findAllSql
      ∧ (∀ (db : Db σ) (log : List (String × List JSVal)),
          (jobsRoutes.getRoot (Db.recording db) (s, log)).2.2
            = log ++ [("SELECT * FROM jobs", [])]) := by
  have h1 : mounted "/auth" "/jobs" = false := by decide
  have h2 : mounted "/companies" "/jobs" = false := by decide
  have h3 : mounted "/users" "/jobs" = false := by decide
  have happ : app routers notFoundError
      { method := "GET", path := "/jobs", authorization := none } s
      = (errorHandler notFoundError, s) := by
    simp [app, h1, h2, h3]
  refine ⟨happ, ?_, by decide, by decide, ?_⟩
  · intro rows
    rw [happ]
    simp [errorHandler]
  · intro db log
    simp only [jobsRoutes.getRoot, Db.recording, jobsRoutes.getRootSql]
    split <;> rename_i heq <;> simp only [Prod.mk.injEq] at heq <;> rw [← heq.2]

/-! ## The query of `Job.update` -/

/-- A blank ends the placeholder being read: the scan of what precedes it and the scan
of what follows it are independent. -/
theorem placeholdersFrom_append_blank (st : ScanState) (xs ys : List Char) :
    placeholdersFrom st (xs ++ ' ' :: ys)
      = placeholdersFrom st xs ++ placeholdersFrom none ys := by
  induction xs generalizing st with
  | nil => simp [placeholdersFrom]
  | cons c cs ih =>
    have e : (c :: cs) ++ ' ' :: ys = c :: (cs ++ ' ' :: ys) := rfl
    rw [e]
    by_cases hc : c = '$'
    · simp only [placeholdersFrom, hc, if_true, ih, List.append_assoc]
    · by_cases hd : c.isDigit = true
      · simp only [placeholdersFrom, hc, hd, if_true, if_false]
        rcases st with _ | _ | n <;> simp only [ih]
      · simp [placeholdersFrom, hc, hd, ih, List.append_assoc]

/-- A run of digits read inside a placeholder yields the number it spells. -/
theorem placeholdersFrom_digits (ds : List Char)
    (hds : ∀ c ∈ ds, c.isDigit = true ∧ c ≠ '$') (a : Nat) :
    placeholdersFrom (some (some a)) ds = [digitsValue a ds] := by
  induction ds generalizing a with
  | nil => rfl
  | cons c cs ih =>
    have hc := hds c (List.mem_cons_self _ _)
    have hcs : ∀ d ∈ cs, d.isDigit = true ∧ d ≠ '$' :=
      fun d hd => hds d (List.mem_cons_of_mem _ hd)
    simp only [placeholdersFrom, hc.1, hc.2, if_true, if_false, ih hcs, digitsValue,
      List.foldl_cons]

/-- The character of a decimal digit is a digit, is not the dollar sign, and has the
digit as its value. -/
theorem digitChar_spec (m : Nat) (hm : m < 10) :
    (Nat.digitChar m).isDigit = true ∧ Nat.digitChar m ≠ '$'
      ∧ (Nat.digitChar m).toNat - 48 = m := by
  interval_cases m <;> decide

/-- The digits are put in front of the accumulator. -/
theorem toDigitsCore_append (fuel n : Nat) (ds : List Char) :
    Nat.toDigitsCore 10 fuel n ds = Nat.toDigitsCore 10 fuel n [] ++ ds := by
  induction fuel generalizing n ds with
  | zero => simp [Nat.toDigitsCore]
  | succ fuel ih =>
    simp only [Nat.toDigitsCore]
    split
    · simp
    · rw [ih (n / 10) (Nat.digitChar (n % 10) :: ds), ih (n / 10) [Nat.digitChar (n % 10)]]
      simp

/-- The decimal digits of `n` are digits, spell `n`, and are at least one. -/
theorem toDigitsCore_spec (fuel n : Nat) (h : n < fuel) :
    (∀ c ∈ Nat.toDigitsCore 10 fuel n [], c.isDigit = true ∧ c ≠ '$')
      ∧ digitsValue 0 (Nat.toDigitsCore 10 fuel n []) = n
      ∧ Nat.toDigitsCore 10 fuel n [] ≠ [] := by
  induction fuel generalizing n with
  | zero => omega
  | succ fuel ih =>
    have hd := digitChar_spec (n % 10) (Nat.mod_lt _ (by decide))
    simp only [Nat.toDigitsCore]
    split
    · rename_i h0
      refine ⟨?_, ?_, by simp⟩
      · intro c hc
        simp only [List.mem_singleton] at hc
        subst hc
        exact ⟨hd.1, hd.2.1⟩
      · simp only [digitsValue, List.foldl_cons, List.foldl_nil, hd.2.2]
        omega
    · rename_i h0
      have hlt : n / 10 < fuel := by omega
      obtain ⟨i1, i2, i3⟩ := ih (n / 10) hlt
      rw [toDigitsCore_append]
      refine ⟨?_, ?_, by simp⟩
      · intro c hc
        rcases List.mem_append.mp hc with hc | hc
        · exact i1 c hc
        · simp only [List.mem_singleton] at hc
          subst hc
          exact ⟨hd.1, hd.2.1⟩
      · unfold digitsValue at i2 ⊢
        rw [List.foldl_append, i2]
        simp only [List.foldl_cons, List.foldl_nil, hd.2.2]
        omega

/-- The text `$k` scans to the placeholder `k`. -/
theorem placeholders_dollar_toString (k : Nat) :
    placeholdersFrom none ("$" ++ toString k).toList = [k] := by
  have hs : ("$" ++ toString k).toList = '$' :: Nat.toDigitsCore 10 (k + 1) k [] := by
    simp [String.toList, toString, Nat.repr, Nat.toDigits, List.asString]
  obtain ⟨h1, h2, h3⟩ := toDigitsCore_spec (k + 1) k (Nat.lt_succ_self k)
  rw [hs]
  cases hds : Nat.toDigitsCore 10 (k + 1) k [] with
  | nil => exact absurd hds h3
  | cons d ds =>
    rw [hds] at h1 h2
    have hd := h1 d (List.mem_cons_self _ _)
    have hrest : ∀ c ∈ ds, c.isDigit = true ∧ c ≠ '$' :=
      fun c hc => h1 c (List.mem_cons_of_mem _ hc)
    have e : digitsValue (d.toNat - 48) ds = k := by
      rw [← h2]
      simp [digitsValue]
    simp only [placeholdersFrom, if_true, emitPlaceholder, List.nil_append, hd.1, hd.2,
      if_false, placeholdersFrom_digits ds hrest, e]

/-- The scan of a text made of four pieces that end at a blank, where only the second
piece and the fourth, a dollar sign and what follows it, hold placeholders. -/
theorem placeholdersFrom_update_shape (A B C setCols ds : List Char)
    (hA : placeholdersFrom none A = []) (hB : placeholdersFrom none B = [])
    (hC : placeholdersFrom none C = []) :
    placeholdersFrom none
        (A ++ ' ' :: (setCols ++ ' ' :: (B ++ ' ' :: (('$' :: ds) ++ ' ' :: C))))
      = placeholdersFrom none setCols ++ placeholdersFrom none ('$' :: ds) := by
  rw [placeholdersFrom_append_blank, placeholdersFrom_append_blank,
    placeholdersFrom_append_blank, placeholdersFrom_append_blank, hA, hB, hC]
  simp

/-- The placeholders of the text of `Job.update` are those of `setCols`, then the one
of the `WHERE` clause. -/
theorem Job.updateSqlOf_placeholders (setCols : String) (k : Nat) :
    placeholders (Job.updateSqlOf setCols ("$" ++ toString k))
      = placeholders setCols ++ [k] := by
  obtain ⟨A, hA, hA0⟩ : ∃ A : List Char,
      "UPDATE jobs \n".data ++ "                      SET ".data = A ++ [' ']
        ∧ placeholdersFrom none A = [] :=
    ⟨"UPDATE jobs \n                      SET".data, by decide, by decide⟩
  obtain ⟨B, hB, hB0⟩ : ∃ B : List Char,
      " \n".data ++ "                      WHERE id = ".data = ' ' :: (B ++ [' '])
        ∧ placeholdersFrom none B = [] :=
    ⟨"\n                      WHERE id =".data, by decide, by decide⟩
  obtain ⟨C, hC, hC0⟩ : ∃ C : List Char,
      " \n".data ++ ("                      RETURNING id, \n".data
        ++ ("                                title, \n".data
        ++ ("                                salary, \n".data
        ++ ("                                equity, \n".data
        ++ "                                company_handle AS \"companyHandle\"".data))))
        = ' ' :: C
        ∧ placeholdersFrom none C = [] :=
    ⟨("\n                      RETURNING id, \n" ++ "                                title, \n"
        ++ "                                salary, \n" ++ "                                equity, \n"
        ++ "                                company_handle AS \"companyHandle\"").data,
      by decide, by decide⟩
  have hk : placeholdersFrom none ('$' :: (toString k).data) = [k] :=
    placeholders_dollar_toString k
  have e : (Job.updateSqlOf setCols ("$" ++ toString k)).data
      = A ++ ' ' :: (setCols.data ++ ' ' :: (B ++ ' ' :: (('$' :: (toString k).data)
          ++ ' ' :: C))) := by
    simp only [Job.updateSqlOf, String.data_append, List.append_assoc]
    rw [hC, ← List.append_assoc " \n".data, hB, ← List.append_assoc "UPDATE jobs \n".data, hA]
    simp only [List.append_assoc, List.cons_append, List.nil_append]
  unfold placeholders
  simp only [String.toList]
  rw [e, placeholdersFrom_update_shape A B C _ _ hA0 hB0 hC0, hk]

/-- The placeholders of the `WHERE` line of the text of `Job.update`. -/
theorem Job.update_where_placeholders (k : Nat) :
    placeholders ("                      WHERE id = " ++ ("$" ++ toString k) ++ " \n")
      = [k] := by
  obtain ⟨B, hB, hB0⟩ : ∃ B : List Char,
      "                      WHERE id = ".data = B ++ [' ']
        ∧ placeholdersFrom none B = [] :=
    ⟨"                      WHERE id =".data, by decide, by decide⟩
  obtain ⟨C, hC, hC0⟩ : ∃ C : List Char,
      " \n".data = ' ' :: C ∧ placeholdersFrom none C = [] :=
    ⟨"\n".data, by decide, by decide⟩
  have hk : placeholdersFrom none ('$' :: (toString k).data) = [k] :=
    placeholders_dollar_toString k
  have e : ("                      WHERE id = " ++ ("$" ++ toString k) ++ " \n").data
      = B ++ ' ' :: (('$' :: (toString k).data) ++ ' ' :: C) := by
    have h0 : ("                      WHERE id = " ++ ("$" ++ toString k) ++ " \n").data
        = "                      WHERE id = ".data
          ++ (['$'] ++ (toString k).data) ++ " \n".data := rfl
    rw [h0, hC, hB]
    simp only [List.append_assoc, List.cons_append, List.nil_append]
  unfold placeholders
  simp only [String.toList]
  rw [e, placeholdersFrom_append_blank, placeholdersFrom_append_blank, hB0, hC0, hk]
  rfl

/-- C15: for every id and every data for which the partial-update builder returns `n`
values and a `SET` list whose placeholders are `$1 .. $n`, `Job.update` issues one
query: its values are those `n` values followed by id, and its text is the template of
the source with `WHERE id = $(n+1)`. The placeholders of the text are `$1 .. $(n+1)`,
the one of the `WHERE` line is `$(n+1)`, it is not among those of the `SET` list, and
each placeholder is at most the number of values. When the query returns rows,
`Job.update` fails with `NotFoundError` exactly when there is no row, and returns the
first row otherwise. The builder is any function `Job.update` could be given. -/
theorem Job.update_query_parameters {σ : Type} (builder : PartialUpdateBuilder)
    (db : Db σ) (id : JSVal) (data : JSObj) (s : σ) (log : List (String × List JSVal))
    (built : SetClause) (text : String)
    (hbuilt : builder data [("companyHandle", "company_handle")] = Except.ok built)
    (hset : placeholders built.setCols = List.range' 1 built.values.length)
    (htext : text =
          "UPDATE jobs \n" ++
          "                      SET " ++ built.setCols ++ " \n" ++
          "                      WHERE id = " ++ ("$" ++ toString (built.values.length + 1))
            ++ " \n" ++
          "                      RETURNING id, \n" ++
          "                                title, \n" ++
          "                                salary, \n" ++
          "                                equity, \n" ++
          "                                company_handle AS \"companyHandle\"") :
    (Job.updateWith builder (Db.recording db) id data (s, log)).2.2
        = log ++ [(text, built.values ++ [id])]
      ∧ (built.values ++ [id]).length = built.values.length + 1
      ∧ placeholders text = List.range' 1 (built.values.length + 1)
      ∧ placeholders ("                      WHERE id = "
            ++ ("$" ++ toString (built.values.length + 1)) ++ " \n")
          = [built.values.length + 1]
      ∧ built.values.length + 1 ∉ placeholders built.setCols
      ∧ (∀ p ∈ placeholders text, 1 ≤ p ∧ p ≤ (built.values ++ [id]).length)
      ∧ (∀ rows s1,
          db.query text (built.values ++ [id]) s = (Except.ok rows, s1) →
          ((∃ m, (Job.updateWith builder db id data s).1
                = Except.error (JSError.NotFoundError m))
              ↔ rows = [])
            ∧ (rows = [] →
                Job.updateWith builder db id data s
                  = (Except.error (JSError.NotFoundError ("No job with id of " ++ id.toStr)),
                      s1))
            ∧ (∀ job rest, rows = job :: rest →
                Job.updateWith builder db id data s = (Except.ok job, s1))) := by
  have hsql : text
      = Job.updateSqlOf built.setCols ("$" ++ toString (built.values.length + 1)) := by
    rw [htext]
    rfl
  have hph : placeholders text = List.range' 1 (built.values.length + 1) := by
    rw [hsql, Job.updateSqlOf_placeholders, hset, List.range'_1_concat, Nat.add_comm 1]
  refine ⟨?_, by simp, hph, Job.update_where_placeholders _, ?_, ?_, ?_⟩
  · simp only [Job.updateWith, hbuilt, Db.recording, ← hsql]
    split <;> rename_i heq <;> simp only [Prod.mk.injEq] at heq
    · rw [← heq.2]
    · split <;> rw [← heq.2]
  · rw [hset, List.mem_range'_1]
    omega
  · intro p hp
    rw [hph, List.mem_range'_1] at hp
    simp only [List.length_append, List.length_singleton]
    omega
  · intro rows s1 hquery
    rw [hsql] at hquery
    have hempty : rows = [] →
        Job.updateWith builder db id data s
          = (Except.error (JSError.NotFoundError ("No job with id of " ++ id.toStr)), s1) := by
      intro hrows
      subst hrows
      simp only [Job.updateWith, hbuilt, hquery, List.head?_nil]
    have hfound : ∀ job rest, rows = job :: rest →
        Job.updateWith builder db id data s = (Except.ok job, s1) := by
      intro job rest hrows
      subst hrows
      simp only [Job.updateWith, hbuilt, hquery, List.head?_cons]
    refine ⟨⟨?_, fun hrows => ⟨_, by rw [hempty hrows]⟩⟩, hempty, hfound⟩
    rintro ⟨m, hm⟩
    cases rows with
    | nil => rfl
    | cons job rest =>
      rw [hfound job rest rfl] at hm
      cases hm

/-- Witness of C15: the model test `not found if no such job`, with the builder of the
spec on the update data of the tests and a database prepared to return no row. -/
theorem Job.update_query_parameters_witness :
    sqlForPartialUpdate.setClause
        [("title", JSVal.str "senior librarian"), ("salary", JSVal.num 85000),
          ("equity", JSVal.num 0)]
        [("companyHandle", "company_handle")]
      = Except.ok (SetClause.mk "title = $1, salary = $2, equity = $3"
          [JSVal.str "senior librarian", JSVal.num 85000, JSVal.num 0])
      ∧ placeholders "title = $1, salary = $2, equity = $3" = List.range' 1 3
      ∧ placeholders
          (Job.updateSqlOf "title = $1, salary = $2, equity = $3" ("$" ++ toString (3 + 1)))
        = List.range' 1 (3 + 1)
      ∧ Job.updateWith sqlForPartialUpdate.setClause Db.scripted (JSVal.num 0)
          [("title", JSVal.str "senior librarian"), ("salary", JSVal.num 85000),
          ("equity", JSVal.num 0)] [[]]
        = (Except.error (JSError.NotFoundError ("No job with id of " ++ (JSVal.num 0).toStr)),
            []) := by
  have h0 : sqlForPartialUpdate
      [("title", JSVal.str "senior librarian"), ("salary", JSVal.num 85000),
          ("equity", JSVal.num 0)]
      [("companyHandle", "company_handle")]
      = Except.ok (PartialUpdate.mk ["title = $1", "salary = $2", "equity = $3"]
          [JSVal.str "senior librarian", JSVal.num 85000, JSVal.num 0]) := by
    unfold sqlForPartialUpdate
    rw [if_neg (by decide)]
    exact congrArg Except.ok (by decide)
  have hbuilt : sqlForPartialUpdate.setClause
      [("title", JSVal.str "senior librarian"), ("salary", JSVal.num 85000),
          ("equity", JSVal.num 0)]
      [("companyHandle", "company_handle")]
      = Except.ok (SetClause.mk "title = $1, salary = $2, equity = $3"
          [JSVal.str "senior librarian", JSVal.num 85000, JSVal.num 0]) := by
    simp only [sqlForPartialUpdate.setClause, h0]
    exact congrArg Except.ok (by decide)
  have hset : placeholders "title = $1, salary = $2, equity = $3" = List.range' 1 3 := by
    decide
  have h := Job.update_query_parameters sqlForPartialUpdate.setClause Db.scripted
    (JSVal.num 0)
    [("title", JSVal.str "senior librarian"), ("salary", JSVal.num 85000),
          ("equity", JSVal.num 0)] [[]] []
    (SetClause.mk "title = $1, salary = $2, equity = $3"
      [JSVal.str "senior librarian", JSVal.num 85000, JSVal.num 0])
    (Job.updateSqlOf "title = $1, salary = $2, equity = $3" ("$" ++ toString (3 + 1)))
    hbuilt hset rfl
  exact ⟨hbuilt, hset, h.2.2.1, (h.2.2.2.2.2.2 [] [] rfl).2.1 rfl⟩

end Jobly
